import Mathlib

/-!
Shallow embedding of the session-cache core of the Home-Security-Chatbot
backend (Go, `src/unnamed/part_001`, the sessioned program): the
`ChatSession` entity, the `chatSessions` `sync.Map` store, the
`generateGeminiResponse` dispatcher, the `handleChat` HTTP handler and one
pass of the `cleanupSessions` sweeper.

Modelling choices:
- `time.Time` is a `Nat` tick; `time.Duration` comparisons use truncated
  `Nat` subtraction, which agrees with Go's signed comparison
  `now.Sub(lastUsed) > 30*time.Minute` on every input (a negative Go
  duration and a truncated-to-zero Nat both fail the strict comparison).
- The `sync.Map` is an association list of `String` keys to `StoreValue`;
  `StoreValue` keeps the Go `any` payload: either a well-formed
  `ChatSession` or an arbitrary other value, so the sweeper's failed type
  assertion branch is representable.
- The external genai provider is a parameter: `newClient` is the result of
  `genai.NewClient`, `send` is `ChatSession.SendMessage` returning either a
  typed failure or the mutated conversation handle plus a response.
- The Go type assertion `session.(*ChatSession)` panics on a non
  `*ChatSession` value; the dispatcher therefore returns an `Option`, with
  `none` standing for that panic.
-/

/-- The state of a `genai.ChatSession` conversation handle: the multi-turn
history it carries. -/
structure GenaiChatSession where
  history : List String
deriving DecidableEq, Repr

/-- Go struct `ChatSession` (src/unnamed/part_001 lines 116-119): the stored
conversation handle plus the `LastUsed` timestamp. -/
structure ChatSession where
  session : GenaiChatSession
  lastUsed : Nat
deriving DecidableEq, Repr

/-- A value stored in the `sync.Map`, whose Go type is `any`: either a
`*ChatSession` (the only value the program ever stores) or some other
value, kept representable so the sweeper's type-assertion branch exists. -/
inductive StoreValue where
  | chatSession : ChatSession → StoreValue
  | other : Nat → StoreValue
deriving DecidableEq, Repr

/-- The `chatSessions` `sync.Map`, as an association list. -/
abbrev SyncMap := List (String × StoreValue)

/-- `sync.Map.Load`: the first binding of the key, if any. -/
def load : SyncMap → String → Option StoreValue
  | [], _ => none
  | (k, v) :: rest, key => if k = key then some v else load rest key

/-- `sync.Map.LoadOrStore`: return the existing value if the key is present,
otherwise store the given value and return it; also returns the store after
the call. -/
def loadOrStore (m : SyncMap) (key : String) (v : StoreValue) :
    StoreValue × SyncMap :=
  match load m key with
  | some existing => (existing, m)
  | none => (v, m ++ [(key, v)])

/-- In-place mutation through the `*ChatSession` pointer obtained from the
map (`cs.LastUsed = time.Now()`, `SendMessage` growing the history): replace
the value bound to the key, leaving everything else alone. -/
def storeUpdate (m : SyncMap) (key : String) (v : StoreValue) : SyncMap :=
  m.map fun kv => if kv.1 = key then (key, v) else kv

/-- `sync.Map.Delete`: remove every binding of the key (a no-op when the key
is absent). -/
def storeDelete (m : SyncMap) (key : String) : SyncMap :=
  m.filter fun kv => kv.1 ≠ key

/-- Every stored value is a well-formed `*ChatSession` (the payload the
program's only writer, `LoadOrStore` in `generateGeminiResponse`, uses). -/
def wellFormed (m : SyncMap) : Bool :=
  m.all fun kv =>
    match kv.2 with
    | .chatSession _ => true
    | .other _ => false

/-- The keys of the store are pairwise distinct (which every store reachable
by the program's operations satisfies). -/
def nodupKeys (m : SyncMap) : Prop :=
  (m.map Prod.fst).Nodup

instance (m : SyncMap) : Decidable (nodupKeys m) :=
  inferInstanceAs (Decidable ((m.map Prod.fst).Nodup))

/-- The number of bindings a key has in the store. -/
def countKey (m : SyncMap) (key : String) : Nat :=
  (m.filter fun kv => kv.1 = key).length

/-- The `LastUsed` timestamp of the session stored under a key, when the key
is bound to a well-formed session. -/
def lastUsedAt (m : SyncMap) (key : String) : Option Nat :=
  match load m key with
  | some (.chatSession cs) => some cs.lastUsed
  | _ => none

/-- The idle threshold `30 * time.Minute` of `cleanupSessions`, in ticks
(one tick = one second). -/
def idleTTL : Nat := 30 * 60

/-- One pass of the `cleanupSessions` sweeper's `Range` (src/unnamed/part_001
lines 260-272): for each entry, a failed `*ChatSession` assertion logs and
continues; an entry idle strictly longer than `idleTTL` is deleted; the
callback always returns `true`, so the whole store is visited. -/
def cleanupSessions (now : Nat) : SyncMap → SyncMap
  | [] => []
  | (k, v) :: rest =>
    match v with
    | .chatSession cs =>
      if now - cs.lastUsed > idleTTL then cleanupSessions now rest
      else (k, .chatSession cs) :: cleanupSessions now rest
    | .other n => (k, .other n) :: cleanupSessions now rest

/-- The environment variables the dispatcher consults. -/
structure Env where
  geminiApiKey : Option String

/-- The response structure returned by the provider: candidates, each with
content parts; a part is a `genai.Text` or some other part kind. -/
inductive GenaiPart where
  | text : String → GenaiPart
  | blob : GenaiPart
deriving DecidableEq, Repr

structure GenaiCandidate where
  parts : List GenaiPart
deriving DecidableEq, Repr

structure GenaiResponse where
  candidates : List GenaiCandidate
deriving DecidableEq, Repr

/-- Outcome of `ChatSession.SendMessage`: a typed failure, or a response
together with the conversation handle as mutated by the successful call. -/
inductive SendResult where
  | failure : String → SendResult
  | success : GenaiChatSession → GenaiResponse → SendResult

/-- The external genai collaborator: the result `genai.NewClient` would
produce, and the behaviour of `SendMessage`. -/
structure Provider where
  newClient : Except String Nat
  send : GenaiChatSession → String → SendResult

/-- The process-wide mutable state: the `chatSessions` map and the cached
`client` / `clientErr` globals (src/unnamed/part_001 lines 121-125). -/
structure AppState where
  chatSessions : SyncMap
  client : Option Nat
  clientErr : Option String
deriving DecidableEq, Repr

/-- A fresh conversation handle, as `model.StartChat()` returns. -/
def startChat : GenaiChatSession := { history := [] }

/-- Lines 246-252 of src/unnamed/part_001: pick the first part of the first
candidate if it is a `genai.Text`, otherwise report the
no-valid-candidates error (the Go function returns both the placeholder
string and a non-nil error there). -/
def extractResponse (resp : GenaiResponse) : String × Option String :=
  match resp.candidates with
  | c0 :: _ =>
    match c0.parts with
    | .text t :: _ => (t, none)
    | .blob :: _ =>
      ("No response generated.", some "no valid candidates found in response")
    | [] =>
      ("No response generated.", some "no valid candidates found in response")
  | [] =>
    ("No response generated.", some "no valid candidates found in response")

/-- Lines 236-252 of src/unnamed/part_001, the per-session exchange once the
client is available: `LoadOrStore` the candidate entity, assert
`*ChatSession` (`none` models the panic on a malformed value), refresh
`LastUsed` through the pointer, send the message, and on success store the
mutated conversation handle and extract the reply. Returns the Go
`(string, error)` pair and the resulting store. -/
def exchange (p : Provider) (now : Nat) (m : SyncMap) (ip userInput : String) :
    Option (String × Option String × SyncMap) :=
  let fresh : ChatSession := { session := startChat, lastUsed := now }
  let ls := loadOrStore m ip (.chatSession fresh)
  match ls.1 with
  | .other _ => none
  | .chatSession cs =>
    let cs1 : ChatSession := { cs with lastUsed := now }
    let m2 := storeUpdate ls.2 ip (.chatSession cs1)
    match p.send cs1.session userInput with
    | .failure e => some ("", some ("Error sending message: " ++ e), m2)
    | .success s2 resp =>
      let m3 := storeUpdate m2 ip (.chatSession { cs1 with session := s2 })
      let r := extractResponse resp
      some (r.1, r.2, m3)

/-- `generateGeminiResponse` (src/unnamed/part_001 lines 208-253): require
the API key, lazily initialize the shared client exactly once caching the
error, short-circuit on a cached initialization error, then run the
session exchange. Returns `none` when the unchecked type assertion
`session.(*ChatSession)` would panic; otherwise
`some (response, error, state)` mirroring the Go `(string, error)` pair
plus the new global state. -/
def generateGeminiResponse (env : Env) (p : Provider) (now : Nat)
    (st : AppState) (ip userInput : String) :
    Option (String × Option String × AppState) :=
  match env.geminiApiKey with
  | none => some ("", some "GEMINI_API_KEY environment variable not set", st)
  | some _ =>
    let st1 : AppState :=
      match st.client, st.clientErr with
      | none, none =>
        match p.newClient with
        | .error e => { st with clientErr := some e }
        | .ok c => { st with client := some c }
      | _, _ => st
    match st1.clientErr with
    | some e => some ("", some ("Error creating AI client: " ++ e), st1)
    | none =>
      match exchange p now st1.chatSessions ip userInput with
      | none => none
      | some out => some (out.1, out.2.1, { st1 with chatSessions := out.2.2 })

/-- The request body as `BodyParser` sees it: either unparseable, or a
parsed `{"message": ...}` (an empty or missing message parses fine, to the
empty string). -/
inductive RequestBody where
  | malformed : RequestBody
  | message : String → RequestBody
deriving DecidableEq, Repr

/-- The JSON responses `handleChat` can produce. -/
inductive HttpResponse where
  | ok : String → HttpResponse
  | badRequest : String → HttpResponse
  | internalError : String → HttpResponse
deriving DecidableEq, Repr

/-- The HTTP status carried by each response shape. -/
def respStatus : HttpResponse → Nat
  | .ok _ => 200
  | .badRequest _ => 400
  | .internalError _ => 500

/-- `handleChat` (src/unnamed/part_001 lines 185-206): 400 on an
unparseable body, otherwise dispatch to `generateGeminiResponse`; 500 with
the error's own message on failure, 200 with the response on success. -/
def handleChat (env : Env) (p : Provider) (now : Nat) (st : AppState)
    (ip : String) (body : RequestBody) : Option (HttpResponse × AppState) :=
  match body with
  | .malformed => some (.badRequest "Invalid request body", st)
  | .message m =>
    match generateGeminiResponse env p now st ip m with
    | none => none
    | some (_, some e, st2) => some (.internalError e, st2)
    | some (resp, none, st2) => some (.ok resp, st2)

/-- A sequence of `LoadOrStore` calls all bearing one identifier, each with
its own candidate entity (each Go call constructs its own candidate before
the call): the list of observed values and the final store. -/
def getOrCreateSeq (m : SyncMap) (key : String) :
    List StoreValue → List StoreValue × SyncMap
  | [] => ([], m)
  | v :: vs =>
    let r := loadOrStore m key v
    let rest := getOrCreateSeq r.2 key vs
    (r.1 :: rest.1, rest.2)

/-- A concrete well-behaved provider used in closed instantiations: the
client initializes, and every send appends the turn to the history and
answers with a single text candidate `reply`. -/
def okProvider : Provider where
  newClient := .ok 1
  send := fun s m =>
    .success { history := s.history ++ [m, "reply"] }
      { candidates := [{ parts := [.text "reply"] }] }

/-- A concrete provider whose every send fails with message `boom`. -/
def failProvider : Provider where
  newClient := .ok 1
  send := fun _ _ => .failure "boom"

/-- A concrete provider whose client initialization fails. -/
def badInitProvider : Provider where
  newClient := .error "dial tcp: refused"
  send := fun _ _ => .failure "unreachable"

/-! ### Store lemmas -/

theorem load_append_other (m : SyncMap) (k j : String) (v : StoreValue)
    (h : j ≠ k) : load (m ++ [(k, v)]) j = load m j := by
  induction m with
  | nil =>
    simp only [List.nil_append, load]
    rw [if_neg fun hh => h hh.symm]
  | cons kv rest ih =>
    obtain ⟨k0, v0⟩ := kv
    simp only [List.cons_append, load]
    by_cases hk : k0 = j
    · simp [hk]
    · simp [hk, ih]

theorem load_append_self (m : SyncMap) (k : String) (v : StoreValue)
    (h : load m k = none) : load (m ++ [(k, v)]) k = some v := by
  induction m with
  | nil => simp [load]
  | cons kv rest ih =>
    obtain ⟨k0, v0⟩ := kv
    simp only [load] at h
    by_cases hk : k0 = k
    · simp [hk] at h
    · simp only [List.cons_append, load, if_neg hk]
      exact ih (by simpa [hk] using h)

theorem storeUpdate_cons (k0 : String) (v0 : StoreValue) (rest : SyncMap)
    (key : String) (v : StoreValue) :
    storeUpdate ((k0, v0) :: rest) key v =
      (if k0 = key then (key, v) else (k0, v0)) :: storeUpdate rest key v := rfl

theorem load_update_self (m : SyncMap) (k : String) (v w : StoreValue)
    (h : load m k = some w) : load (storeUpdate m k v) k = some v := by
  induction m with
  | nil => simp [load] at h
  | cons kv rest ih =>
    obtain ⟨k0, v0⟩ := kv
    rw [storeUpdate_cons]
    by_cases hk : k0 = k
    · rw [if_pos hk]
      simp [load]
    · rw [if_neg hk]
      simp only [load, if_neg hk] at h ⊢
      exact ih h

theorem load_update_other (m : SyncMap) (k j : String) (v : StoreValue)
    (h : j ≠ k) : load (storeUpdate m k v) j = load m j := by
  induction m with
  | nil => rfl
  | cons kv rest ih =>
    obtain ⟨k0, v0⟩ := kv
    rw [storeUpdate_cons]
    by_cases hk : k0 = k
    · rw [if_pos hk]
      have hkj : ¬ k = j := fun hh => h hh.symm
      have hk0j : ¬ k0 = j := fun hh => hkj (hk.symm.trans hh)
      simp only [load, if_neg hkj, if_neg hk0j]
      exact ih
    · rw [if_neg hk]
      simp only [load]
      by_cases hj : k0 = j
      · simp [hj]
      · simp [hj, ih]

theorem storeUpdate_storeUpdate (m : SyncMap) (k : String)
    (a b : StoreValue) : storeUpdate (storeUpdate m k a) k b = storeUpdate m k b := by
  induction m with
  | nil => rfl
  | cons kv rest ih =>
    obtain ⟨k0, v0⟩ := kv
    by_cases hk : k0 = k
    · subst hk
      simp [storeUpdate_cons, ih]
    · simp [storeUpdate_cons, hk, ih]

theorem load_none_of_not_mem (m : SyncMap) (k : String)
    (h : k ∉ m.map Prod.fst) : load m k = none := by
  induction m with
  | nil => rfl
  | cons kv rest ih =>
    obtain ⟨k0, v0⟩ := kv
    simp only [List.map_cons, List.mem_cons, not_or] at h
    have hk : ¬ k0 = k := fun hh => h.1 hh.symm
    simp only [load, if_neg hk]
    exact ih h.2

theorem not_mem_of_load_none (m : SyncMap) (k : String)
    (h : load m k = none) : k ∉ m.map Prod.fst := by
  induction m with
  | nil => simp
  | cons kv rest ih =>
    obtain ⟨k0, v0⟩ := kv
    by_cases hk : k0 = k
    · simp [load, hk] at h
    · simp only [load, if_neg hk] at h
      simp only [List.map_cons, List.mem_cons, not_or]
      exact ⟨fun hh => hk hh.symm, ih h⟩

theorem countKey_eq_zero_of_load_none (m : SyncMap) (k : String)
    (h : load m k = none) : countKey m k = 0 := by
  induction m with
  | nil => rfl
  | cons kv rest ih =>
    obtain ⟨k0, v0⟩ := kv
    by_cases hk : k0 = k
    · simp [load, hk] at h
    · simp only [load, if_neg hk] at h
      simpa [countKey, List.filter_cons, hk] using ih h

theorem countKey_append_self (m : SyncMap) (k : String) (v : StoreValue) :
    countKey (m ++ [(k, v)]) k = countKey m k + 1 := by
  simp [countKey, List.filter_append]

theorem getOrCreateSeq_present (m : SyncMap) (key : String) (v : StoreValue)
    (vs : List StoreValue) (h : load m key = some v) :
    getOrCreateSeq m key vs = (vs.map fun _ => v, m) := by
  induction vs with
  | nil => rfl
  | cons w ws ih => simp [getOrCreateSeq, loadOrStore, h, ih]

/-! ### Sweeper and well-formedness lemmas -/

theorem load_cleanup_none (now : Nat) (m : SyncMap) (k : String)
    (h : load m k = none) : load (cleanupSessions now m) k = none := by
  induction m with
  | nil => rfl
  | cons kv rest ih =>
    obtain ⟨k0, v0⟩ := kv
    by_cases hk : k0 = k
    · simp [load, hk] at h
    · simp only [load, if_neg hk] at h
      cases v0 with
      | chatSession cs =>
        simp only [cleanupSessions]
        by_cases hexp : now - cs.lastUsed > idleTTL
        · rw [if_pos hexp]
          exact ih h
        · rw [if_neg hexp]
          simp only [load, if_neg hk]
          exact ih h
      | other n =>
        simp only [cleanupSessions, load, if_neg hk]
        exact ih h

theorem nodupKeys_cons (k0 : String) (v0 : StoreValue) (rest : SyncMap)
    (h : nodupKeys ((k0, v0) :: rest)) :
    k0 ∉ rest.map Prod.fst ∧ nodupKeys rest := by
  simpa [nodupKeys] using h

theorem wellFormed_load (m : SyncMap) (k : String) (v : StoreValue)
    (hw : wellFormed m = true) (h : load m k = some v) :
    ∃ cs, v = .chatSession cs := by
  induction m with
  | nil => simp [load] at h
  | cons kv rest ih =>
    obtain ⟨k0, v0⟩ := kv
    simp only [wellFormed, List.all_cons, Bool.and_eq_true] at hw
    obtain ⟨hw1, hw2⟩ := hw
    by_cases hk : k0 = k
    · simp only [load, if_pos hk] at h
      cases v0 with
      | chatSession cs => exact ⟨cs, (Option.some.inj h).symm⟩
      | other n => simp at hw1
    · simp only [load, if_neg hk] at h
      exact ih hw2 h

theorem wellFormed_append (m : SyncMap) (k : String) (cs : ChatSession)
    (hw : wellFormed m = true) :
    wellFormed (m ++ [(k, .chatSession cs)]) = true := by
  simp only [wellFormed, List.all_append, Bool.and_eq_true] at hw ⊢
  exact ⟨hw, by simp⟩

theorem wellFormed_update (m : SyncMap) (k : String) (cs : ChatSession)
    (hw : wellFormed m = true) :
    wellFormed (storeUpdate m k (.chatSession cs)) = true := by
  induction m with
  | nil => rfl
  | cons kv rest ih =>
    obtain ⟨k0, v0⟩ := kv
    rw [storeUpdate_cons]
    simp only [wellFormed, List.all_cons, Bool.and_eq_true] at hw ⊢
    obtain ⟨hw1, hw2⟩ := hw
    refine ⟨?_, ih hw2⟩
    by_cases hk : k0 = k
    · rw [if_pos hk]
    · rw [if_neg hk]
      exact hw1

theorem wellFormed_cleanup (now : Nat) (m : SyncMap)
    (hw : wellFormed m = true) :
    wellFormed (cleanupSessions now m) = true := by
  induction m with
  | nil => rfl
  | cons kv rest ih =>
    obtain ⟨k0, v0⟩ := kv
    simp only [wellFormed, List.all_cons, Bool.and_eq_true] at hw
    obtain ⟨hw1, hw2⟩ := hw
    cases v0 with
    | chatSession cs =>
      simp only [cleanupSessions]
      by_cases hexp : now - cs.lastUsed > idleTTL
      · rw [if_pos hexp]
        exact ih hw2
      · rw [if_neg hexp]
        simp only [wellFormed, List.all_cons, Bool.and_eq_true]
        exact ⟨trivial, ih hw2⟩
    | other n => simp at hw1

/-! ### Exchange lemmas -/

theorem exchange_other (p : Provider) (now : Nat) (m : SyncMap)
    (ip input : String) (n : Nat) (hl : load m ip = some (.other n)) :
    exchange p now m ip input = none := by
  simp [exchange, loadOrStore, hl]

theorem exchange_present_failure (p : Provider) (now : Nat) (m : SyncMap)
    (ip input : String) (cs : ChatSession) (e : String)
    (hl : load m ip = some (.chatSession cs))
    (hs : p.send cs.session input = .failure e) :
    exchange p now m ip input =
      some ("", some ("Error sending message: " ++ e),
        storeUpdate m ip (.chatSession { cs with lastUsed := now })) := by
  simp [exchange, loadOrStore, hl, hs]

theorem exchange_present_success (p : Provider) (now : Nat) (m : SyncMap)
    (ip input : String) (cs : ChatSession) (s2 : GenaiChatSession)
    (resp : GenaiResponse)
    (hl : load m ip = some (.chatSession cs))
    (hs : p.send cs.session input = .success s2 resp) :
    exchange p now m ip input =
      some ((extractResponse resp).1, (extractResponse resp).2,
        storeUpdate m ip (.chatSession { session := s2, lastUsed := now })) := by
  simp [exchange, loadOrStore, hl, hs, storeUpdate_storeUpdate]

theorem exchange_absent_failure (p : Provider) (now : Nat) (m : SyncMap)
    (ip input : String) (e : String) (hl : load m ip = none)
    (hs : p.send startChat input = .failure e) :
    exchange p now m ip input =
      some ("", some ("Error sending message: " ++ e),
        storeUpdate (m ++ [(ip, .chatSession { session := startChat, lastUsed := now })])
          ip (.chatSession { session := startChat, lastUsed := now })) := by
  simp [exchange, loadOrStore, hl, hs]

theorem exchange_absent_success (p : Provider) (now : Nat) (m : SyncMap)
    (ip input : String) (s2 : GenaiChatSession) (resp : GenaiResponse)
    (hl : load m ip = none)
    (hs : p.send startChat input = .success s2 resp) :
    exchange p now m ip input =
      some ((extractResponse resp).1, (extractResponse resp).2,
        storeUpdate (m ++ [(ip, .chatSession { session := startChat, lastUsed := now })])
          ip (.chatSession { session := s2, lastUsed := now })) := by
  simp [exchange, loadOrStore, hl, hs, storeUpdate_storeUpdate]

theorem exchange_total (p : Provider) (now : Nat) (m : SyncMap)
    (ip input : String)
    (h : load m ip = none ∨ ∃ cs, load m ip = some (.chatSession cs)) :
    ∃ xout, exchange p now m ip input = some xout := by
  rcases h with hl | ⟨cs, hl⟩
  · rcases hsend : p.send startChat input with e | ⟨s2, resp⟩
    · exact ⟨_, exchange_absent_failure p now m ip input e hl hsend⟩
    · exact ⟨_, exchange_absent_success p now m ip input s2 resp hl hsend⟩
  · rcases hsend : p.send cs.session input with e | ⟨s2, resp⟩
    · exact ⟨_, exchange_present_failure p now m ip input cs e hl hsend⟩
    · exact ⟨_, exchange_present_success p now m ip input cs s2 resp hl hsend⟩

theorem exchange_out_spec (p : Provider) (now : Nat) (m : SyncMap)
    (ip input : String) (xout : String × Option String × SyncMap)
    (hx : exchange p now m ip input = some xout) :
    lastUsedAt xout.2.2 ip = some now ∧
    (∀ j, j ≠ ip → load xout.2.2 j = load m j) ∧
    (wellFormed m = true → wellFormed xout.2.2 = true) := by
  rcases hl : load m ip with _ | v
  · rcases hsend : p.send startChat input with e | ⟨s2, resp⟩
    · rw [exchange_absent_failure p now m ip input e hl hsend] at hx
      obtain rfl := Option.some.inj hx
      have happ := load_append_self m ip
        (StoreValue.chatSession { session := startChat, lastUsed := now }) hl
      have hload := load_update_self
        (m ++ [(ip, StoreValue.chatSession { session := startChat, lastUsed := now })]) ip
        (StoreValue.chatSession { session := startChat, lastUsed := now })
        (StoreValue.chatSession { session := startChat, lastUsed := now }) happ
      refine ⟨by simp [lastUsedAt, hload], fun j hj => ?_, fun hw => ?_⟩
      · rw [load_update_other _ _ _ _ hj, load_append_other _ _ _ _ hj]
      · exact wellFormed_update _ _ _ (wellFormed_append _ _ _ hw)
    · rw [exchange_absent_success p now m ip input s2 resp hl hsend] at hx
      obtain rfl := Option.some.inj hx
      have happ := load_append_self m ip
        (StoreValue.chatSession { session := startChat, lastUsed := now }) hl
      have hload := load_update_self
        (m ++ [(ip, StoreValue.chatSession { session := startChat, lastUsed := now })]) ip
        (StoreValue.chatSession { session := s2, lastUsed := now })
        (StoreValue.chatSession { session := startChat, lastUsed := now }) happ
      refine ⟨by simp [lastUsedAt, hload], fun j hj => ?_, fun hw => ?_⟩
      · rw [load_update_other _ _ _ _ hj, load_append_other _ _ _ _ hj]
      · exact wellFormed_update _ _ _ (wellFormed_append _ _ _ hw)
  · cases v with
    | chatSession cs =>
      rcases hsend : p.send cs.session input with e | ⟨s2, resp⟩
      · rw [exchange_present_failure p now m ip input cs e hl hsend] at hx
        obtain rfl := Option.some.inj hx
        have hload := load_update_self m ip
          (StoreValue.chatSession { cs with lastUsed := now })
          (StoreValue.chatSession cs) hl
        refine ⟨by simp [lastUsedAt, hload], fun j hj => ?_, fun hw => ?_⟩
        · rw [load_update_other _ _ _ _ hj]
        · exact wellFormed_update _ _ _ hw
      · rw [exchange_present_success p now m ip input cs s2 resp hl hsend] at hx
        obtain rfl := Option.some.inj hx
        have hload := load_update_self m ip
          (StoreValue.chatSession { session := s2, lastUsed := now })
          (StoreValue.chatSession cs) hl
        refine ⟨by simp [lastUsedAt, hload], fun j hj => ?_, fun hw => ?_⟩
        · rw [load_update_other _ _ _ _ hj]
        · exact wellFormed_update _ _ _ hw
    | other n =>
      rw [exchange_other p now m ip input n hl] at hx
      cases hx

/-! ### Dispatcher path lemmas -/

theorem generate_noKey (env : Env) (p : Provider) (now : Nat) (st : AppState)
    (ip input : String) (hk : env.geminiApiKey = none) :
    generateGeminiResponse env p now st ip input =
      some ("", some "GEMINI_API_KEY environment variable not set", st) := by
  simp [generateGeminiResponse, hk]

theorem generate_cachedErr (env : Env) (p : Provider) (now : Nat)
    (st : AppState) (ip input : String) (key e : String)
    (hk : env.geminiApiKey = some key) (he : st.clientErr = some e) :
    generateGeminiResponse env p now st ip input =
      some ("", some ("Error creating AI client: " ++ e), st) := by
  rcases hc : st.client with _ | c <;>
    simp [generateGeminiResponse, hk, he, hc]

theorem generate_initFail (env : Env) (p : Provider) (now : Nat)
    (st : AppState) (ip input : String) (key e : String)
    (hk : env.geminiApiKey = some key) (hc : st.client = none)
    (he : st.clientErr = none) (hn : p.newClient = .error e) :
    generateGeminiResponse env p now st ip input =
      some ("", some ("Error creating AI client: " ++ e),
        { st with clientErr := some e }) := by
  simp [generateGeminiResponse, hk, hc, he, hn]

theorem generate_run_clientSome (env : Env) (p : Provider) (now : Nat)
    (st : AppState) (ip input : String) (key : String) (c : Nat)
    (xout : String × Option String × SyncMap)
    (hk : env.geminiApiKey = some key) (hc : st.client = some c)
    (he : st.clientErr = none)
    (hx : exchange p now st.chatSessions ip input = some xout) :
    generateGeminiResponse env p now st ip input =
      some (xout.1, xout.2.1, { st with chatSessions := xout.2.2 }) := by
  simp [generateGeminiResponse, hk, hc, he, hx]

theorem generate_run_clientSome_none (env : Env) (p : Provider) (now : Nat)
    (st : AppState) (ip input : String) (key : String) (c : Nat)
    (hk : env.geminiApiKey = some key) (hc : st.client = some c)
    (he : st.clientErr = none)
    (hx : exchange p now st.chatSessions ip input = none) :
    generateGeminiResponse env p now st ip input = none := by
  simp [generateGeminiResponse, hk, hc, he, hx]

theorem generate_run_initOk (env : Env) (p : Provider) (now : Nat)
    (st : AppState) (ip input : String) (key : String) (c : Nat)
    (xout : String × Option String × SyncMap)
    (hk : env.geminiApiKey = some key) (hc : st.client = none)
    (he : st.clientErr = none) (hn : p.newClient = .ok c)
    (hx : exchange p now st.chatSessions ip input = some xout) :
    generateGeminiResponse env p now st ip input =
      some (xout.1, xout.2.1,
        { chatSessions := xout.2.2, client := some c, clientErr := none }) := by
  simp [generateGeminiResponse, hk, hc, he, hn, hx]

theorem generate_run_initOk_none (env : Env) (p : Provider) (now : Nat)
    (st : AppState) (ip input : String) (key : String) (c : Nat)
    (hk : env.geminiApiKey = some key) (hc : st.client = none)
    (he : st.clientErr = none) (hn : p.newClient = .ok c)
    (hx : exchange p now st.chatSessions ip input = none) :
    generateGeminiResponse env p now st ip input = none := by
  simp [generateGeminiResponse, hk, hc, he, hn, hx]

/-- Master case split for `generateGeminiResponse`: any `some` outcome either
came from an early-return branch (state untouched, error present) or from
the session exchange. -/
theorem generate_cases (env : Env) (p : Provider) (now : Nat) (st : AppState)
    (ip input : String) (out : String × Option String × AppState)
    (h : generateGeminiResponse env p now st ip input = some out) :
    (out.2.2.chatSessions = st.chatSessions ∧ out.2.1.isSome = true) ∨
    (∃ xout, exchange p now st.chatSessions ip input = some xout ∧
      out.1 = xout.1 ∧ out.2.1 = xout.2.1 ∧ out.2.2.chatSessions = xout.2.2) := by
  rcases hk : env.geminiApiKey with _ | key
  · rw [generate_noKey env p now st ip input hk] at h
    obtain rfl := Option.some.inj h
    exact .inl ⟨rfl, rfl⟩
  · rcases he : st.clientErr with _ | e
    · rcases hc : st.client with _ | c
      · rcases hn : p.newClient with e | c
        · rw [generate_initFail env p now st ip input key e hk hc he hn] at h
          obtain rfl := Option.some.inj h
          exact .inl ⟨rfl, rfl⟩
        · rcases hx : exchange p now st.chatSessions ip input with _ | xout
          · rw [generate_run_initOk_none env p now st ip input key c hk hc he hn hx] at h
            cases h
          · rw [generate_run_initOk env p now st ip input key c xout hk hc he hn hx] at h
            obtain rfl := Option.some.inj h
            exact .inr ⟨xout, rfl, rfl, rfl, rfl⟩
      · rcases hx : exchange p now st.chatSessions ip input with _ | xout
        · rw [generate_run_clientSome_none env p now st ip input key c hk hc he hx] at h
          cases h
        · rw [generate_run_clientSome env p now st ip input key c xout hk hc he hx] at h
          obtain rfl := Option.some.inj h
          exact .inr ⟨xout, rfl, rfl, rfl, rfl⟩
    · rw [generate_cachedErr env p now st ip input key e hk he] at h
      obtain rfl := Option.some.inj h
      exact .inl ⟨rfl, rfl⟩

/-! ### Auxiliary theorems used by several claims -/

theorem isSome_of_lastUsedAt (m : SyncMap) (key : String) (t : Nat)
    (h : lastUsedAt m key = some t) : (load m key).isSome = true := by
  unfold lastUsedAt at h
  rcases hv : load m key with _ | v
  · rw [hv] at h
    cases h
  · rfl

theorem storeDelete_cons (k0 : String) (v0 : StoreValue) (rest : SyncMap)
    (key : String) :
    storeDelete ((k0, v0) :: rest) key =
      if k0 = key then storeDelete rest key
      else (k0, v0) :: storeDelete rest key := by
  by_cases hk : k0 = key
  · simp [storeDelete, List.filter_cons, hk]
  · simp [storeDelete, List.filter_cons, hk]

theorem storeDelete_of_load_none (m : SyncMap) (key : String)
    (h : load m key = none) : storeDelete m key = m := by
  induction m with
  | nil => rfl
  | cons kv rest ih =>
    obtain ⟨k0, v0⟩ := kv
    by_cases hk : k0 = key
    · simp [load, hk] at h
    · simp only [load, if_neg hk] at h
      rw [storeDelete_cons, if_neg hk, ih h]

theorem cleanup_load_eq (now : Nat) (m : SyncMap) (key : String)
    (cs cs2 : ChatSession) (hn : nodupKeys m)
    (hl : load m key = some (.chatSession cs))
    (h2 : load (cleanupSessions now m) key = some (.chatSession cs2)) :
    cs2 = cs := by
  induction m with
  | nil => cases hl
  | cons kv rest ih =>
    obtain ⟨k0, v0⟩ := kv
    obtain ⟨hnotin, hnrest⟩ := nodupKeys_cons k0 v0 rest hn
    by_cases hk : k0 = key
    · subst hk
      simp only [load, if_pos rfl] at hl
      obtain rfl := Option.some.inj hl
      by_cases hexp : now - cs.lastUsed > idleTTL
      · simp only [cleanupSessions, if_pos hexp] at h2
        rw [load_cleanup_none now rest k0 (load_none_of_not_mem rest k0 hnotin)] at h2
        cases h2
      · simp only [cleanupSessions, if_neg hexp, load, if_pos rfl] at h2
        exact (StoreValue.chatSession.inj (Option.some.inj h2)).symm
    · simp only [load, if_neg hk] at hl
      cases v0 with
      | chatSession cs0 =>
        by_cases hexp : now - cs0.lastUsed > idleTTL
        · simp only [cleanupSessions, if_pos hexp] at h2
          exact ih hnrest hl h2
        · simp only [cleanupSessions, if_neg hexp, load, if_neg hk] at h2
          exact ih hnrest hl h2
      | other n =>
        simp only [cleanupSessions, load, if_neg hk] at h2
        exact ih hnrest hl h2

/-! ### Claim theorems -/

/-- C1: `LoadOrStore` (the store lookup in `generateGeminiResponse`) returns
the existing entity when the identifier is bound and otherwise inserts and
returns the new one; for any sequence of such calls bearing one identifier,
every caller observes the first entity and the store ends up with exactly
one binding for that identifier. -/
theorem getOrCreate_single_entity :
    (∀ (m : SyncMap) (key : String) (v w : StoreValue),
        load m key = some w → loadOrStore m key v = (w, m)) ∧
    (∀ (m : SyncMap) (key : String) (v : StoreValue),
        load m key = none →
        loadOrStore m key v = (v, m ++ [(key, v)]) ∧
        load (m ++ [(key, v)]) key = some v) ∧
    (∀ (m : SyncMap) (key : String) (v : StoreValue) (vs : List StoreValue),
        load m key = none →
        (getOrCreateSeq m key (v :: vs)).1 = (v :: vs).map (fun _ => v) ∧
        load (getOrCreateSeq m key (v :: vs)).2 key = some v ∧
        countKey (getOrCreateSeq m key (v :: vs)).2 key = 1) := by
  refine ⟨?_, ?_, ?_⟩
  · intro m key v w h
    simp [loadOrStore, h]
  · intro m key v h
    exact ⟨by simp [loadOrStore, h], load_append_self m key v h⟩
  · intro m key v vs h
    have hsome : load (m ++ [(key, v)]) key = some v := load_append_self m key v h
    have hseq := getOrCreateSeq_present (m ++ [(key, v)]) key v vs hsome
    refine ⟨?_, ?_, ?_⟩
    · simp [getOrCreateSeq, loadOrStore, h, hseq]
    · simp [getOrCreateSeq, loadOrStore, h, hseq, hsome]
    · simp only [getOrCreateSeq, loadOrStore, h, hseq]
      rw [countKey_append_self, countKey_eq_zero_of_load_none m key h]

/-- C1 witness: two back-to-back calls for identifier `10.0.0.5` on an empty
store both observe the first entity and leave a single binding. -/
theorem getOrCreate_single_entity_witness :
    load ([] : SyncMap) "10.0.0.5" = none ∧
    (getOrCreateSeq [] "10.0.0.5"
        [.chatSession { session := { history := [] }, lastUsed := 1 },
         .chatSession { session := { history := [] }, lastUsed := 2 }]).1 =
      [.chatSession { session := { history := [] }, lastUsed := 1 },
       .chatSession { session := { history := [] }, lastUsed := 1 }] ∧
    countKey (getOrCreateSeq [] "10.0.0.5"
        [.chatSession { session := { history := [] }, lastUsed := 1 },
         .chatSession { session := { history := [] }, lastUsed := 2 }]).2
      "10.0.0.5" = 1 := by
  have h := getOrCreate_single_entity.2.2 [] "10.0.0.5"
    (.chatSession { session := { history := [] }, lastUsed := 1 })
    [.chatSession { session := { history := [] }, lastUsed := 2 }] rfl
  exact ⟨rfl, h.1, h.2.2⟩

/-- C8: `Delete` on the session store is idempotent: deleting twice leaves
the same store as deleting once, and deleting an absent identifier leaves
the store untouched (and is no error). -/
theorem delete_idempotent :
    (∀ (m : SyncMap) (key : String),
        storeDelete (storeDelete m key) key = storeDelete m key) ∧
    (∀ (m : SyncMap) (key : String),
        load m key = none → storeDelete m key = m) := by
  constructor
  · intro m key
    simp [storeDelete, List.filter_filter]
  · exact storeDelete_of_load_none

/-- C8 witness: double deletion on a concrete two-entry store, and deletion
of an absent key on the empty store. -/
theorem delete_idempotent_witness :
    storeDelete (storeDelete
        [("a", StoreValue.other 0),
         ("b", .chatSession { session := { history := [] }, lastUsed := 3 })] "a") "a" =
      storeDelete
        [("a", StoreValue.other 0),
         ("b", .chatSession { session := { history := [] }, lastUsed := 3 })] "a" ∧
    load ([] : SyncMap) "a" = none ∧
    storeDelete ([] : SyncMap) "a" = [] :=
  ⟨delete_idempotent.1 _ "a", rfl, delete_idempotent.2 [] "a" rfl⟩

/-- C4: after one sweep pass at time `now`, an entry idle strictly longer
than the 30-minute threshold is absent, and an entry idle strictly less
than the threshold is still present unchanged. -/
theorem cleanupSessions_ttl (now : Nat) (m : SyncMap) (key : String)
    (cs : ChatSession) (hn : nodupKeys m)
    (h : load m key = some (.chatSession cs)) :
    (now - cs.lastUsed > idleTTL → load (cleanupSessions now m) key = none) ∧
    (now - cs.lastUsed < idleTTL →
      load (cleanupSessions now m) key = some (.chatSession cs)) := by
  induction m with
  | nil => cases h
  | cons kv rest ih =>
    obtain ⟨k0, v0⟩ := kv
    obtain ⟨hnotin, hnrest⟩ := nodupKeys_cons k0 v0 rest hn
    by_cases hk : k0 = key
    · subst hk
      simp only [load, if_pos rfl] at h
      obtain rfl := Option.some.inj h
      constructor
      · intro hexp
        simp only [cleanupSessions, if_pos hexp]
        exact load_cleanup_none now rest k0 (load_none_of_not_mem rest k0 hnotin)
      · intro hfresh
        have hnexp : ¬ now - cs.lastUsed > idleTTL := by omega
        simp [cleanupSessions, hnexp, load]
    · simp only [load, if_neg hk] at h
      have hrest := ih hnrest h
      cases v0 with
      | chatSession cs0 =>
        by_cases hexp0 : now - cs0.lastUsed > idleTTL
        · simpa [cleanupSessions, hexp0] using hrest
        · simp only [cleanupSessions, if_neg hexp0, load, if_neg hk]
          exact hrest
      | other n =>
        simp only [cleanupSessions, load, if_neg hk]
        exact hrest

/-- C4 witness: at sweep time 2000 (TTL 1800), the session idle for 2000
ticks is evicted and the session idle for 1 tick is retained. -/
theorem cleanupSessions_ttl_witness :
    nodupKeys [("a", .chatSession { session := { history := [] }, lastUsed := 0 }),
               ("b", .chatSession { session := { history := [] }, lastUsed := 1999 })] ∧
    2000 - 0 > idleTTL ∧ 2000 - 1999 < idleTTL ∧
    load (cleanupSessions 2000
        [("a", .chatSession { session := { history := [] }, lastUsed := 0 }),
         ("b", .chatSession { session := { history := [] }, lastUsed := 1999 })]) "a" = none ∧
    load (cleanupSessions 2000
        [("a", .chatSession { session := { history := [] }, lastUsed := 0 }),
         ("b", .chatSession { session := { history := [] }, lastUsed := 1999 })]) "b" =
      some (.chatSession { session := { history := [] }, lastUsed := 1999 }) := by
  refine ⟨by decide, by decide, by decide, ?_, ?_⟩
  · exact (cleanupSessions_ttl 2000
      [("a", .chatSession { session := { history := [] }, lastUsed := 0 }),
       ("b", .chatSession { session := { history := [] }, lastUsed := 1999 })]
      "a" { session := { history := [] }, lastUsed := 0 }
      (by decide) (by decide)).1 (by decide)
  · exact (cleanupSessions_ttl 2000
      [("a", .chatSession { session := { history := [] }, lastUsed := 0 }),
       ("b", .chatSession { session := { history := [] }, lastUsed := 1999 })]
      "b" { session := { history := [] }, lastUsed := 1999 }
      (by decide) (by decide)).2 (by decide)

/-- C6: a cached initialization error is returned, wrapped, to every later
call of `generateGeminiResponse` whatever provider behaviour that call sees
(so initialization is not retried and the state is unchanged), and a failed
first initialization caches its error in `clientErr`. -/
theorem clientErr_cached :
    (∀ (env : Env) (key : String) (p : Provider) (now : Nat) (st : AppState)
        (ip input e : String),
        env.geminiApiKey = some key → st.clientErr = some e →
        generateGeminiResponse env p now st ip input =
          some ("", some ("Error creating AI client: " ++ e), st)) ∧
    (∀ (env : Env) (key : String) (p : Provider) (now : Nat) (st : AppState)
        (ip input e : String),
        env.geminiApiKey = some key → st.client = none → st.clientErr = none →
        p.newClient = .error e →
        generateGeminiResponse env p now st ip input =
          some ("", some ("Error creating AI client: " ++ e),
            { st with clientErr := some e })) :=
  ⟨fun env key p now st ip input e hk he =>
      generate_cachedErr env p now st ip input key e hk he,
   fun env key p now st ip input e hk hc he hn =>
      generate_initFail env p now st ip input key e hk hc he hn⟩

/-- C6 witness: a failed first initialization caches `dial tcp: refused`,
and a later call made with a fully working provider still returns the same
wrapped cached error with the state unchanged. -/
theorem clientErr_cached_witness :
    generateGeminiResponse { geminiApiKey := some "k" } badInitProvider 1
        { chatSessions := [], client := none, clientErr := none } "1.2.3.4" "hi" =
      some ("", some "Error creating AI client: dial tcp: refused",
        { chatSessions := [], client := none, clientErr := some "dial tcp: refused" }) ∧
    generateGeminiResponse { geminiApiKey := some "k" } okProvider 2
        { chatSessions := [], client := none, clientErr := some "dial tcp: refused" } "1.2.3.4" "hi" =
      some ("", some "Error creating AI client: dial tcp: refused",
        { chatSessions := [], client := none, clientErr := some "dial tcp: refused" }) :=
  ⟨clientErr_cached.2 { geminiApiKey := some "k" } "k" badInitProvider 1
      { chatSessions := [], client := none, clientErr := none } "1.2.3.4" "hi"
      "dial tcp: refused" rfl rfl rfl rfl,
   clientErr_cached.1 { geminiApiKey := some "k" } "k" okProvider 2
      { chatSessions := [], client := none, clientErr := some "dial tcp: refused" }
      "1.2.3.4" "hi" "dial tcp: refused" rfl rfl⟩

/-- C2 counterexample: with the session for `1.2.3.4` last used at tick 0,
a failing provider call at tick 100 returns the typed error and keeps the
session, but its `LastUsed` has been mutated from 0 to 100 — the refresh at
line 238 of src/unnamed/part_001 happens before the provider call, so a
failed exchange does mutate `lastActiveAt`, contradicting the claim. -/
theorem provider_failure_mutates_lastUsed_cex :
    lastUsedAt [("1.2.3.4",
        .chatSession { session := { history := ["q", "a"] }, lastUsed := 0 })]
      "1.2.3.4" = some 0 ∧
    generateGeminiResponse { geminiApiKey := some "k" } failProvider 100
        { chatSessions := [("1.2.3.4",
            .chatSession { session := { history := ["q", "a"] }, lastUsed := 0 })],
          client := some 1, clientErr := none } "1.2.3.4" "follow-up" =
      some ("", some "Error sending message: boom",
        { chatSessions := [("1.2.3.4",
            .chatSession { session := { history := ["q", "a"] }, lastUsed := 100 })],
          client := some 1, clientErr := none }) ∧
    lastUsedAt [("1.2.3.4",
        .chatSession { session := { history := ["q", "a"] }, lastUsed := 100 })]
      "1.2.3.4" = some 100 ∧
    (0 : Nat) ≠ 100 := by
  refine ⟨rfl, ?_, rfl, by decide⟩
  rfl

/-- C2 amended: on provider failure `generateGeminiResponse` returns the
typed wrapped error and the session entry remains in the store, but the
session's `LastUsed` is mutated: it is refreshed to the exchange's start
time `now` before the provider call is made. -/
theorem provider_failure_error_keeps_session
    (env : Env) (p : Provider) (now : Nat) (st : AppState)
    (ip input key e : String) (c : Nat) (cs : ChatSession)
    (hk : env.geminiApiKey = some key) (hc : st.client = some c)
    (he : st.clientErr = none)
    (hl : load st.chatSessions ip = some (.chatSession cs))
    (hs : p.send cs.session input = .failure e) :
    generateGeminiResponse env p now st ip input =
      some ("", some ("Error sending message: " ++ e),
        { st with chatSessions := (storeUpdate st.chatSessions ip
            (.chatSession { cs with lastUsed := now })) }) ∧
    load (storeUpdate st.chatSessions ip
        (.chatSession { cs with lastUsed := now })) ip =
      some (.chatSession { cs with lastUsed := now }) := by
  have hx := exchange_present_failure p now st.chatSessions ip input cs e hl hs
  refine ⟨?_, load_update_self st.chatSessions ip _ _ hl⟩
  have hg := generate_run_clientSome env p now st ip input key c _ hk hc he hx
  simpa using hg

/-- C2 amended witness: a concrete failing exchange at tick 7 on a session
last used at tick 3 returns the typed error with the session kept and
`LastUsed` refreshed to 7. -/
theorem provider_failure_error_keeps_session_witness :
    generateGeminiResponse { geminiApiKey := some "k" } failProvider 7
        { chatSessions := [("ipA",
            .chatSession { session := { history := [] }, lastUsed := 3 })],
          client := some 1, clientErr := none } "ipA" "msg" =
      some ("", some "Error sending message: boom",
        { chatSessions := [("ipA",
            .chatSession { session := { history := [] }, lastUsed := 7 })],
          client := some 1, clientErr := none }) :=
  (provider_failure_error_keeps_session { geminiApiKey := some "k" } failProvider 7
    { chatSessions := [("ipA",
        .chatSession { session := { history := [] }, lastUsed := 3 })],
      client := some 1, clientErr := none } "ipA" "msg" "k" "boom" 1
    { session := { history := [] }, lastUsed := 3 } rfl rfl rfl rfl rfl).1

/-- C3 counterexample: a well-formed request whose message is the empty
string is not rejected: on an empty store it yields HTTP 200 and creates a
session for the client, contradicting the claimed `InvalidRequest` with no
store mutation. -/
theorem empty_message_processed_cex :
    handleChat { geminiApiKey := some "k" } okProvider 5
        { chatSessions := [], client := some 1, clientErr := none }
        "9.9.9.9" (.message "") =
      some (.ok "reply",
        { chatSessions := [("9.9.9.9",
            .chatSession { session := { history := ["", "reply"] }, lastUsed := 5 })],
          client := some 1, clientErr := none }) ∧
    respStatus (.ok "reply") = 200 ∧ (200 : Nat) ≠ 400 ∧
    ([] : SyncMap) ≠
      [("9.9.9.9",
        .chatSession { session := { history := ["", "reply"] }, lastUsed := 5 })] := by
  refine ⟨?_, rfl, by decide, by decide⟩
  rfl

/-- C3 amended: `handleChat` rejects only malformed bodies with 400; a
parseable body is never answered with 400 whatever its message, and an
empty message is processed like any other — with the client ready and the
identifier unseen, it leaves a session stored for that identifier. -/
theorem handleChat_message_never_400 :
    (∀ (env : Env) (p : Provider) (now : Nat) (st : AppState)
        (ip msg : String) (out : HttpResponse × AppState),
        handleChat env p now st ip (.message msg) = some out →
        respStatus out.1 ≠ 400) ∧
    (∀ (env : Env) (p : Provider) (now : Nat) (st : AppState)
        (ip key : String) (c : Nat) (out : HttpResponse × AppState),
        env.geminiApiKey = some key → st.client = some c →
        st.clientErr = none → load st.chatSessions ip = none →
        handleChat env p now st ip (.message "") = some out →
        (load out.2.chatSessions ip).isSome = true) := by
  constructor
  · intro env p now st ip msg out h
    simp only [handleChat] at h
    rcases hg : generateGeminiResponse env p now st ip msg with _ | go
    · rw [hg] at h
      cases h
    · rw [hg] at h
      obtain ⟨r, e, st2⟩ := go
      cases e with
      | none =>
        obtain rfl := Option.some.inj h
        simp [respStatus]
      | some e0 =>
        obtain rfl := Option.some.inj h
        simp [respStatus]
  · intro env p now st ip key c out hk hc he hl h
    obtain ⟨xout, hx⟩ := exchange_total p now st.chatSessions ip "" (.inl hl)
    have hgen := generate_run_clientSome env p now st ip "" key c xout hk hc he hx
    obtain ⟨hlast, _, _⟩ := exchange_out_spec p now st.chatSessions ip "" xout hx
    simp only [handleChat, hgen] at h
    rcases hu : xout.2.1 with _ | e
    · rw [hu] at h
      obtain rfl := Option.some.inj h
      exact isSome_of_lastUsedAt xout.2.2 ip now hlast
    · rw [hu] at h
      obtain rfl := Option.some.inj h
      exact isSome_of_lastUsedAt xout.2.2 ip now hlast

/-- C3 amended witness: the concrete empty-message request yields a 200
response and a stored session for `9.9.9.9`. -/
theorem handleChat_message_never_400_witness :
    respStatus (HttpResponse.ok "reply") ≠ 400 ∧
    (load [("9.9.9.9",
        .chatSession { session := { history := ["", "reply"] }, lastUsed := 5 })]
      "9.9.9.9").isSome = true := by
  constructor
  · exact handleChat_message_never_400.1 { geminiApiKey := some "k" } okProvider 5
      { chatSessions := [], client := some 1, clientErr := none } "9.9.9.9" ""
      (.ok "reply",
        { chatSessions := [("9.9.9.9",
            .chatSession { session := { history := ["", "reply"] }, lastUsed := 5 })],
          client := some 1, clientErr := none }) rfl
  · exact handleChat_message_never_400.2 { geminiApiKey := some "k" } okProvider 5
      { chatSessions := [], client := some 1, clientErr := none } "9.9.9.9" "k" 1
      (.ok "reply",
        { chatSessions := [("9.9.9.9",
            .chatSession { session := { history := ["", "reply"] }, lastUsed := 5 })],
          client := some 1, clientErr := none }) rfl rfl rfl rfl rfl

/-- C5: assuming the clock is non-decreasing (`cs.lastUsed ≤ now`), a call
of `generateGeminiResponse` never moves a session's `LastUsed` backwards —
it either leaves it alone (early-error paths) or refreshes it to `now`, and
a successful exchange always sets it to `now`; one sweeper pass never
alters the `LastUsed` of a surviving entry. -/
theorem lastUsed_monotone :
    (∀ (env : Env) (p : Provider) (now : Nat) (st : AppState)
        (ip input : String) (cs : ChatSession)
        (out : String × Option String × AppState),
        load st.chatSessions ip = some (.chatSession cs) →
        cs.lastUsed ≤ now →
        generateGeminiResponse env p now st ip input = some out →
        ∃ t, lastUsedAt out.2.2.chatSessions ip = some t ∧ cs.lastUsed ≤ t ∧
          (out.2.1 = none → t = now)) ∧
    (∀ (now : Nat) (m : SyncMap) (key : String) (cs cs2 : ChatSession),
        nodupKeys m →
        load m key = some (.chatSession cs) →
        load (cleanupSessions now m) key = some (.chatSession cs2) →
        cs2.lastUsed = cs.lastUsed) := by
  constructor
  · intro env p now st ip input cs out hl hle h
    rcases generate_cases env p now st ip input out h with
      ⟨hsame, herr⟩ | ⟨xout, hx, _, h2, h3⟩
    · refine ⟨cs.lastUsed, ?_, le_refl _, ?_⟩
      · rw [hsame]
        simp [lastUsedAt, hl]
      · intro hnone
        rw [hnone] at herr
        cases herr
    · obtain ⟨hlast, _, _⟩ := exchange_out_spec p now st.chatSessions ip input xout hx
      refine ⟨now, ?_, hle, fun _ => rfl⟩
      rw [h3]
      exact hlast
  · intro now m key cs cs2 hn hl h2
    rw [cleanup_load_eq now m key cs cs2 hn hl h2]

/-- C5 witness: a successful exchange at tick 100 on a session last used at
tick 3 refreshes `LastUsed` to 100. -/
theorem lastUsed_monotone_witness :
    (3 : Nat) ≤ 100 ∧
    (∃ t, lastUsedAt [("ipA",
        .chatSession { session := { history := ["hi", "reply"] }, lastUsed := 100 })]
      "ipA" = some t ∧ 3 ≤ t ∧ ((none : Option String) = none → t = 100)) := by
  refine ⟨by decide, ?_⟩
  exact lastUsed_monotone.1 { geminiApiKey := some "k" } okProvider 100
    { chatSessions := [("ipA",
        .chatSession { session := { history := [] }, lastUsed := 3 })],
      client := some 1, clientErr := none }
    "ipA" "hi" { session := { history := [] }, lastUsed := 3 }
    ("reply", none,
      { chatSessions := [("ipA",
          .chatSession { session := { history := ["hi", "reply"] }, lastUsed := 100 })],
        client := some 1, clientErr := none })
    rfl (by decide) rfl

/-- C7: a call of `generateGeminiResponse` for identifier `ipA` — in
particular one whose provider call fails — leaves the binding of every
other identifier in the session store exactly as it was (presence,
`LastUsed` and conversation state included). -/
theorem provider_failure_isolated
    (env : Env) (p : Provider) (now : Nat) (st : AppState)
    (ipA j input : String) (out : String × Option String × AppState)
    (hne : j ≠ ipA)
    (h : generateGeminiResponse env p now st ipA input = some out) :
    load out.2.2.chatSessions j = load st.chatSessions j := by
  rcases generate_cases env p now st ipA input out h with
    ⟨hsame, _⟩ | ⟨xout, hx, _, _, h3⟩
  · rw [hsame]
  · rw [h3]
    exact (exchange_out_spec p now st.chatSessions ipA input xout hx).2.1 j hne

/-- C7 witness: a failing exchange for `A` at tick 100 leaves `B`'s binding
(the same entity, `LastUsed` 50) untouched. -/
theorem provider_failure_isolated_witness :
    load [("A", .chatSession { session := { history := [] }, lastUsed := 100 }),
          ("B", .chatSession { session := { history := ["b"] }, lastUsed := 50 })] "B" =
      load [("A", .chatSession { session := { history := [] }, lastUsed := 0 }),
            ("B", .chatSession { session := { history := ["b"] }, lastUsed := 50 })] "B" := by
  exact provider_failure_isolated { geminiApiKey := some "k" } failProvider 100
    { chatSessions :=
        [("A", .chatSession { session := { history := [] }, lastUsed := 0 }),
         ("B", .chatSession { session := { history := ["b"] }, lastUsed := 50 })],
      client := some 1, clientErr := none }
    "A" "B" "hi"
    ("", some "Error sending message: boom",
      { chatSessions :=
          [("A", .chatSession { session := { history := [] }, lastUsed := 100 }),
           ("B", .chatSession { session := { history := ["b"] }, lastUsed := 50 })],
        client := some 1, clientErr := none })
    (by decide) rfl

/-- C9: starting from the empty store, every value the program ever keeps in
the session map is a well-formed `ChatSession` — `generateGeminiResponse`
always succeeds past its unchecked type assertion on a well-formed store
and preserves well-formedness, as does a sweeper pass — so the sweeper's
malformed-entry branch is unreachable; and when that branch is taken on a
hypothetical malformed entry it keeps the entry and continues the
iteration rather than stopping the sweep. -/
theorem store_values_wellFormed :
    (wellFormed ([] : SyncMap) = true) ∧
    (∀ (env : Env) (p : Provider) (now : Nat) (st : AppState) (ip input : String),
        wellFormed st.chatSessions = true →
        ∃ out, generateGeminiResponse env p now st ip input = some out ∧
          wellFormed out.2.2.chatSessions = true) ∧
    (∀ (now : Nat) (m : SyncMap), wellFormed m = true →
        wellFormed (cleanupSessions now m) = true) ∧
    (∀ (now : Nat) (k : String) (n : Nat) (rest : SyncMap),
        cleanupSessions now ((k, .other n) :: rest) =
          (k, .other n) :: cleanupSessions now rest) := by
  refine ⟨rfl, ?_, wellFormed_cleanup, fun now k n rest => rfl⟩
  intro env p now st ip input hw
  rcases hk : env.geminiApiKey with _ | key
  · exact ⟨_, generate_noKey env p now st ip input hk, hw⟩
  · rcases he : st.clientErr with _ | e
    · have hdis : load st.chatSessions ip = none ∨
          ∃ cs, load st.chatSessions ip = some (.chatSession cs) := by
        rcases hl : load st.chatSessions ip with _ | v
        · exact .inl rfl
        · obtain ⟨cs, rfl⟩ := wellFormed_load st.chatSessions ip v hw hl
          exact .inr ⟨cs, rfl⟩
      obtain ⟨xout, hx⟩ := exchange_total p now st.chatSessions ip input hdis
      have hwf := (exchange_out_spec p now st.chatSessions ip input xout hx).2.2 hw
      rcases hc : st.client with _ | c
      · rcases hn : p.newClient with e0 | c0
        · exact ⟨_, generate_initFail env p now st ip input key e0 hk hc he hn, hw⟩
        · exact ⟨_, generate_run_initOk env p now st ip input key c0 xout hk hc he hn hx, hwf⟩
      · exact ⟨_, generate_run_clientSome env p now st ip input key c xout hk hc he hx, hwf⟩
    · exact ⟨_, generate_cachedErr env p now st ip input key e hk he, hw⟩

/-- C9 witness: a concrete well-formed one-entry store stays well-formed
through a dispatcher call. -/
theorem store_values_wellFormed_witness :
    wellFormed ([("x", .chatSession { session := { history := [] }, lastUsed := 0 })] :
      SyncMap) = true ∧
    (∃ out, generateGeminiResponse { geminiApiKey := some "k" } okProvider 5
        { chatSessions :=
            [("x", .chatSession { session := { history := [] }, lastUsed := 0 })],
          client := some 1, clientErr := none } "x" "hi" = some out ∧
      wellFormed out.2.2.chatSessions = true) := by
  refine ⟨by decide, ?_⟩
  exact store_values_wellFormed.2.1 { geminiApiKey := some "k" } okProvider 5
    { chatSessions :=
        [("x", .chatSession { session := { history := [] }, lastUsed := 0 })],
      client := some 1, clientErr := none } "x" "hi" (by decide)

/-- C10: whenever `generateGeminiResponse` returns a non-nil error,
`handleChat` answers with HTTP 500 whose JSON error field is exactly that
error's message text, verbatim. -/
theorem handleChat_propagates_error
    (env : Env) (p : Provider) (now : Nat) (st : AppState)
    (ip msg r e : String) (st2 : AppState)
    (h : generateGeminiResponse env p now st ip msg = some (r, some e, st2)) :
    handleChat env p now st ip (.message msg) = some (.internalError e, st2) ∧
    respStatus (.internalError e) = 500 := by
  refine ⟨?_, rfl⟩
  simp [handleChat, h]

/-- C10 witness: with no API key configured, the client receives status 500
and the internal message `GEMINI_API_KEY environment variable not set`
verbatim. -/
theorem handleChat_propagates_error_witness :
    handleChat { geminiApiKey := none } okProvider 0
        { chatSessions := [], client := none, clientErr := none } "z" (.message "hello") =
      some (.internalError "GEMINI_API_KEY environment variable not set",
        { chatSessions := [], client := none, clientErr := none }) ∧
    respStatus (.internalError "GEMINI_API_KEY environment variable not set") = 500 :=
  handleChat_propagates_error { geminiApiKey := none } okProvider 0
    { chatSessions := [], client := none, clientErr := none } "z" "hello" ""
    "GEMINI_API_KEY environment variable not set"
    { chatSessions := [], client := none, clientErr := none } rfl
